import Mathlib

/-!
Verification of the boundary-sampling core of `src/components/StreetViewCollector.tsx`
(street-line-scanner).

The component's algorithmic core consists of:
* `pointInPolygon` — even-odd ray-casting containment test (source lines 75–88);
* `isPointInBoundary` — containment against a parsed GeoJSON document (lines 60–72);
* `getBoundaryBounds` — axis-aligned bounding box over all polygon vertices,
  accumulated with `Math.min`/`Math.max` starting from `±Infinity` (lines 91–109);
* `simulateCollection` — the sampling loop: for each requested slot, a do-while
  rejection loop draws candidate coordinates and tests containment, with an attempt
  counter that breaks once `attempts > 100` (lines 111–203);
* `canStartCollection` — the UI gate (line 216).

Embedding choices:
* JavaScript numbers are modelled as `ℚ`.  The `±Infinity` sentinels that
  `getBoundaryBounds` starts from are modelled by the explicit type `XReal`
  (`Math.min(Infinity, q) = q`, `Math.max(-Infinity, q) = q`, and min/max of two
  finite values are ordinary min/max; the accumulators never reach the opposite
  infinity, which `XReal.minQ`/`XReal.maxQ` make explicit).
* `Math.random()` draws are modelled by a stream `draws : ℕ → ℚ × ℚ` of candidate
  `(lat, lng)` pairs, one pair per loop attempt (source lines 157–158 compute the
  pair from two successive `Math.random()` calls and the bounding box; the sampling
  claims hold for every stream of candidates, so the sampler is parametrised by the
  stream).  Panoid and timestamp generation (lines 173, 176) are modelled by streams
  `ids, times : ℕ → String` indexed by the slot number.
* `feature.geometry.coordinates[0]` on an empty `coordinates` array is `undefined`
  in JavaScript and iterating it would throw; the embedding uses the empty ring
  instead.  No claim exercises that path.
* A `geojson` value of `null` (the parse of the text "null") is `Option.none`;
  a missing/`null` `features` field is `features = none`.
-/

/-- JavaScript number extended with the `±Infinity` sentinels used by
`getBoundaryBounds` (source lines 92–93). -/
inductive XReal where
  | negInf : XReal
  | posInf : XReal
  | fin : ℚ → XReal
deriving DecidableEq

/-- `Math.min(acc, q)` where `acc` is the running minimum (initially `Infinity`)
and `q` a finite vertex coordinate. -/
def XReal.minQ : XReal → ℚ → XReal
  | .posInf, q => .fin q
  | .negInf, _ => .negInf
  | .fin a, q => .fin (min a q)

/-- `Math.max(acc, q)` where `acc` is the running maximum (initially `-Infinity`)
and `q` a finite vertex coordinate. -/
def XReal.maxQ : XReal → ℚ → XReal
  | .negInf, q => .fin q
  | .posInf, _ => .posInf
  | .fin a, q => .fin (max a q)

/-- `x ≤ q` for an extended bound against a finite coordinate. -/
def XReal.leQ : XReal → ℚ → Prop
  | .negInf, _ => True
  | .posInf, _ => False
  | .fin a, q => a ≤ q

/-- `x ≥ q` for an extended bound against a finite coordinate. -/
def XReal.geQ : XReal → ℚ → Prop
  | .negInf, _ => False
  | .posInf, _ => True
  | .fin a, q => q ≤ a

/-- `feature.geometry`: a `type` tag and a list of rings, each ring an ordered list
of `[lng, lat]` vertex pairs. -/
structure Geometry where
  type : String
  coordinates : List (List (ℚ × ℚ))
deriving DecidableEq

/-- A GeoJSON feature (only the `geometry` field is read by the source). -/
structure Feature where
  geometry : Geometry
deriving DecidableEq

/-- A parsed GeoJSON document; `features = none` models a missing or `null`
`features` field. -/
structure GeoJson where
  features : Option (List Feature)
deriving DecidableEq

/-- The first coordinate ring of a feature, `feature.geometry.coordinates[0]`
(empty if `coordinates` is empty — see the embedding note above). -/
def Feature.ring0 (f : Feature) : List (ℚ × ℚ) :=
  f.geometry.coordinates.headD []

/-- The single-edge crossing test of source line 83:
`((yi > y) !== (yj > y)) && (x < (xj - xi) * (y - yi) / (yj - yi) + xi)`. -/
def edgeCross (x y : ℚ) (vi vj : ℚ × ℚ) : Bool :=
  (decide (vi.2 > y) != decide (vj.2 > y)) &&
    decide (x < (vj.1 - vi.1) * (y - vi.2) / (vj.2 - vi.2) + vi.1)

/-- Ray-casting containment test, source lines 75–88.  The loop
`for (let i = 0, j = polygon.length - 1; i < polygon.length; j = i++)` visits edge
`(polygon[i], polygon[j])` with `j = i - 1` and `j = length - 1` at `i = 0`,
toggling `inside` on each crossing; modelled as a fold over the index range.
`point = (x, y) = (lng, lat)`; each vertex is `(lng, lat)`. -/
def pointInPolygon (point : ℚ × ℚ) (polygon : List (ℚ × ℚ)) : Bool :=
  (List.range polygon.length).foldl
    (fun inside i =>
      let j := if i = 0 then polygon.length - 1 else i - 1
      if edgeCross point.1 point.2 (polygon.getD i (0, 0)) (polygon.getD j (0, 0))
        then !inside else inside)
    false

/-- Boundary containment, source lines 60–72: `false` on a `null` document or a
missing `features` field, otherwise `true` iff some feature has geometry type
`'Polygon'` and its first ring contains `[lng, lat]`. -/
def isPointInBoundary (lat lng : ℚ) (geojson : Option GeoJson) : Bool :=
  match geojson with
  | none => false
  | some gj =>
    match gj.features with
    | none => false
    | some fs =>
      fs.any fun f =>
        decide (f.geometry.type = "Polygon") && pointInPolygon (lng, lat) f.ring0

/-- The record returned by `getBoundaryBounds` (source line 108). -/
structure Bounds where
  minLat : XReal
  maxLat : XReal
  minLng : XReal
  maxLng : XReal
deriving DecidableEq

/-- The initial accumulator of source lines 92–93:
`minLat = Infinity, maxLat = -Infinity, minLng = Infinity, maxLng = -Infinity`. -/
def Bounds.init : Bounds :=
  ⟨.posInf, .negInf, .posInf, .negInf⟩

/-- One vertex update of source lines 99–102 (`v = (lng, lat)`). -/
def updateVertex (b : Bounds) (v : ℚ × ℚ) : Bounds :=
  { minLat := b.minLat.minQ v.2
    maxLat := b.maxLat.maxQ v.2
    minLng := b.minLng.minQ v.1
    maxLng := b.maxLng.maxQ v.1 }

/-- One feature of the `forEach` of source lines 96–105: only features with
geometry type `'Polygon'` contribute, and only their first ring. -/
def updateFeature (b : Bounds) (f : Feature) : Bounds :=
  if f.geometry.type = "Polygon" then f.ring0.foldl updateVertex b else b

/-- Bounding-box computation, source lines 91–109.  A `null` document or missing
`features` field leaves the accumulator at its `±Infinity` initial value. -/
def getBoundaryBounds (geojson : Option GeoJson) : Bounds :=
  match geojson with
  | none => Bounds.init
  | some gj =>
    match gj.features with
    | none => Bounds.init
    | some fs => fs.foldl updateFeature Bounds.init

/-- `true` iff the document has at least one `'Polygon'` feature with a nonempty
first ring — exactly the condition under which `getBoundaryBounds` sees a vertex. -/
def hasVertex (geojson : Option GeoJson) : Bool :=
  match geojson with
  | none => false
  | some gj =>
    match gj.features with
    | none => false
    | some fs =>
      fs.any fun f => decide (f.geometry.type = "Polygon") && !f.ring0.isEmpty

/-- A collected result, source lines 12–17 / 172–177. -/
structure SVResult where
  panoid : String
  latitude : ℚ
  longitude : ℚ
  timestamp : String
deriving DecidableEq

/-- The state in which the per-slot do-while loop of source lines 155–169 exits:
the final `validCoords`, the last drawn `lat`/`lng`, and the index of the next
unused candidate draw (so `next - t` is the number of attempts made). -/
structure SlotOutcome where
  valid : Bool
  lat : ℚ
  lng : ℚ
  next : ℕ
deriving DecidableEq

/-- The per-slot do-while loop of source lines 155–169.  Each pass draws the
candidate pair `draws t`, tests containment, and increments `attempts`; the loop
exits when the candidate is valid or when `attempts > 100` (the `break` of line
167).  `fuel` is the number of draws still permitted before the `attempts > 100`
break fires: the loop body runs with `attempts = 101 - fuel + (initial attempts)`,
and the initial call uses `fuel = 101` (`attempts` starts at 0, and the break
fires after the draw that takes `attempts` to 101).  The `fuel = 0` case is
unreachable from the initial call, since the do-while always makes at least one
draw. -/
def slotGo (geojson : Option GeoJson) (draws : ℕ → ℚ × ℚ) : ℕ → ℕ → SlotOutcome
  | 0, t => ⟨false, 0, 0, t⟩
  | fuel + 1, t =>
    let lat := (draws t).1
    let lng := (draws t).2
    let valid := isPointInBoundary lat lng geojson
    if valid then ⟨true, lat, lng, t + 1⟩
    else if fuel = 0 then ⟨false, lat, lng, t + 1⟩
    else slotGo geojson draws fuel (t + 1)

/-- One iteration of the `for` loop of source lines 147–186 acting on the result
list: run the per-slot loop from draw index `t`, and append a result (line 179)
exactly when `validCoords` holds at exit (line 171).  `i` is the slot index,
used to pick the panoid and timestamp of lines 173 and 176. -/
def slotStep (geojson : Option GeoJson) (draws : ℕ → ℚ × ℚ) (ids times : ℕ → String)
    (i t : ℕ) (acc : List SVResult) : List SVResult × ℕ :=
  let o := slotGo geojson draws 101 t
  (if o.valid then acc ++ [⟨ids i, o.lat, o.lng, times i⟩] else acc, o.next)

/-- The `for` loop of source lines 147–186: `n` slots remain, `i` is the current
slot index, `t` the next candidate-draw index, `acc` the accumulated results. -/
def runSlots (geojson : Option GeoJson) (draws : ℕ → ℚ × ℚ) (ids times : ℕ → String) :
    ℕ → ℕ → ℕ → List SVResult → List SVResult
  | 0, _, _, acc => acc
  | n + 1, i, t, acc =>
    let p := slotStep geojson draws ids times i t acc
    runSlots geojson draws ids times n (i + 1) p.2 p.1

/-- Outcome of `config.boundingFile.text()` + `JSON.parse` (source lines 140–141):
`malformed` models a `JSON.parse` exception, `ok g` a parsed document (`ok none`
is the JavaScript value `null`, the parse of the text "null"). -/
inductive ParseResult where
  | malformed : ParseResult
  | ok : Option GeoJson → ParseResult
deriving DecidableEq

/-- The three observable outcomes of `simulateCollection`: the early return of
lines 116–124 (no boundary file), the catch branch of lines 194–199 ("Collection
failed"), and normal completion with the final result list. -/
inductive CollectOutcome where
  | noBoundaryFile : CollectOutcome
  | failed : CollectOutcome
  | completed : List SVResult → CollectOutcome
deriving DecidableEq

/-- `simulateCollection`, source lines 111–203, restricted to its result-producing
behaviour: no boundary file short-circuits; a parse failure lands in the catch
branch; otherwise the `for` loop runs `targetCount` times (zero times when
`targetCount ≤ 0`, as `for (let i = 0; i < targetCount; i++)` does) and the run
completes with the accumulated results.  `targetCount : ℤ` since the form state
is an arbitrary parsed integer. -/
def simulateCollection (boundingFile : Option ParseResult) (targetCount : ℤ)
    (draws : ℕ → ℚ × ℚ) (ids times : ℕ → String) : CollectOutcome :=
  match boundingFile with
  | none => .noBoundaryFile
  | some .malformed => .failed
  | some (.ok g) => .completed (runSlots g draws ids times targetCount.toNat 0 0 [])

/-- The UI gate of source line 216:
`config.boundingFile && config.startingUrl && config.targetCount > 0`
(a file object and a nonempty URL string are truthy). -/
def canStartCollection (boundingFile : Option ParseResult) (startingUrl : String)
    (targetCount : ℤ) : Bool :=
  boundingFile.isSome && !(startingUrl = "") && decide (0 < targetCount)

/-- Concrete square boundary from the spec's test scenario:
one Polygon feature with ring `[(0,0),(0,10),(10,10),(10,0)]`. -/
def gSquare : Option GeoJson :=
  some ⟨some [⟨⟨"Polygon", [[(0, 0), (0, 10), (10, 10), (10, 0)]]⟩⟩]⟩

/-- Concrete boundary document with an empty feature list. -/
def gNoFeatures : Option GeoJson :=
  some ⟨some []⟩

lemma slotGo_valid_contains (g : Option GeoJson) (draws : ℕ → ℚ × ℚ) :
    ∀ fuel t, (slotGo g draws fuel t).valid = true →
      isPointInBoundary (slotGo g draws fuel t).lat (slotGo g draws fuel t).lng g = true := by
  intro fuel
  induction fuel with
  | zero => intro t h; simp [slotGo] at h
  | succ f ih =>
    intro t h
    by_cases hv : isPointInBoundary (draws t).1 (draws t).2 g = true
    · simp [slotGo, hv]
    · by_cases hf : f = 0
      · simp [slotGo, hv, hf] at h
      · simp only [slotGo, hv, if_false, hf, Bool.false_eq_true] at h ⊢
        exact ih (t + 1) h

lemma slotGo_next_bounds (g : Option GeoJson) (draws : ℕ → ℚ × ℚ) :
    ∀ fuel t, 0 < fuel →
      t < (slotGo g draws fuel t).next ∧ (slotGo g draws fuel t).next ≤ t + fuel := by
  intro fuel
  induction fuel with
  | zero => intro t h; omega
  | succ f ih =>
    intro t _
    by_cases hv : isPointInBoundary (draws t).1 (draws t).2 g = true
    · simp [slotGo, hv]
    · by_cases hf : f = 0
      · simp [slotGo, hv, hf]
      · simp only [slotGo, hv, if_false, hf, Bool.false_eq_true]
        have := ih (t + 1) (Nat.pos_of_ne_zero hf)
        omega

lemma slotGo_never_valid (g : Option GeoJson) (draws : ℕ → ℚ × ℚ)
    (hg : ∀ lat lng : ℚ, isPointInBoundary lat lng g = false) :
    ∀ fuel t, (slotGo g draws fuel t).valid = false := by
  intro fuel
  induction fuel with
  | zero => intro t; simp [slotGo]
  | succ f ih =>
    intro t
    by_cases hf : f = 0
    · simp [slotGo, hg, hf]
    · simp only [slotGo, hg, if_false, hf, Bool.false_eq_true]
      exact ih (t + 1)

lemma slotStep_length (g : Option GeoJson) (draws : ℕ → ℚ × ℚ) (ids times : ℕ → String)
    (i t : ℕ) (acc : List SVResult) :
    ((slotStep g draws ids times i t acc).1).length ≤ acc.length + 1 := by
  unfold slotStep
  by_cases hv : (slotGo g draws 101 t).valid = true
  · simp [hv]
  · simp [hv]

lemma runSlots_length (g : Option GeoJson) (draws : ℕ → ℚ × ℚ) (ids times : ℕ → String) :
    ∀ n i t acc, (runSlots g draws ids times n i t acc).length ≤ acc.length + n := by
  intro n
  induction n with
  | zero => intro i t acc; simp [runSlots]
  | succ m ih =>
    intro i t acc
    rw [runSlots]
    calc (runSlots g draws ids times m (i + 1) (slotStep g draws ids times i t acc).2
            (slotStep g draws ids times i t acc).1).length
        ≤ ((slotStep g draws ids times i t acc).1).length + m := ih _ _ _
      _ ≤ (acc.length + 1) + m := by
          have := slotStep_length g draws ids times i t acc; omega
      _ = acc.length + (m + 1) := by omega

lemma runSlots_mem (g : Option GeoJson) (draws : ℕ → ℚ × ℚ) (ids times : ℕ → String) :
    ∀ n i t acc, (∀ r ∈ acc, isPointInBoundary r.latitude r.longitude g = true) →
      ∀ r ∈ runSlots g draws ids times n i t acc,
        isPointInBoundary r.latitude r.longitude g = true := by
  intro n
  induction n with
  | zero => intro i t acc hacc; simpa [runSlots] using hacc
  | succ m ih =>
    intro i t acc hacc
    rw [runSlots]
    apply ih
    intro r hr
    unfold slotStep at hr
    by_cases hv : (slotGo g draws 101 t).valid = true
    · simp only [hv, if_true, List.mem_append, List.mem_singleton] at hr
      rcases hr with hr | hr
      · exact hacc r hr
      · subst hr
        exact slotGo_valid_contains g draws 101 t hv
    · simp only [hv, Bool.false_eq_true, if_false] at hr
      exact hacc r hr

lemma runSlots_never_valid (g : Option GeoJson) (draws : ℕ → ℚ × ℚ) (ids times : ℕ → String)
    (hg : ∀ lat lng : ℚ, isPointInBoundary lat lng g = false) :
    ∀ n i t acc, runSlots g draws ids times n i t acc = acc := by
  intro n
  induction n with
  | zero => intro i t acc; simp [runSlots]
  | succ m ih =>
    intro i t acc
    rw [runSlots]
    unfold slotStep
    simp only [slotGo_never_valid g draws hg 101 t, Bool.false_eq_true, if_false]
    exact ih _ _ _

lemma updateFeature_of_no_vertex (b : Bounds) (f : Feature)
    (h : (decide (f.geometry.type = "Polygon") && !f.ring0.isEmpty) = false) :
    updateFeature b f = b := by
  unfold updateFeature
  split
  · next ht =>
    have hempty : f.ring0 = [] := by
      rw [decide_eq_true ht, Bool.true_and] at h
      cases hri : f.ring0 with
      | nil => rfl
      | cons a l => rw [hri] at h; simp [List.isEmpty] at h
    rw [hempty]
    rfl
  · rfl

lemma slotGo_succ (g : Option GeoJson) (draws : ℕ → ℚ × ℚ) (f t : ℕ) :
    slotGo g draws (f + 1) t =
      if isPointInBoundary (draws t).1 (draws t).2 g then ⟨true, (draws t).1, (draws t).2, t + 1⟩
      else if f = 0 then ⟨false, (draws t).1, (draws t).2, t + 1⟩
      else slotGo g draws f (t + 1) := rfl

lemma runSlots_zero (g : Option GeoJson) (d : ℕ → ℚ × ℚ) (ids times : ℕ → String)
    (si ti : ℕ) (acc : List SVResult) : runSlots g d ids times 0 si ti acc = acc := rfl

lemma runSlots_succ (g : Option GeoJson) (d : ℕ → ℚ × ℚ) (ids times : ℕ → String)
    (n si ti : ℕ) (acc : List SVResult) :
    runSlots g d ids times (n + 1) si ti acc =
      runSlots g d ids times n (si + 1) (slotStep g d ids times si ti acc).2
        (slotStep g d ids times si ti acc).1 := rfl

lemma slotStep_first_valid (g : Option GeoJson) (d : ℕ → ℚ × ℚ) (ids times : ℕ → String)
    (i t : ℕ) (acc : List SVResult)
    (h : isPointInBoundary (d t).1 (d t).2 g = true) :
    slotStep g d ids times i t acc = (acc ++ [⟨ids i, (d t).1, (d t).2, times i⟩], t + 1) := by
  simp only [slotStep]
  rw [show (101 : ℕ) = 100 + 1 from rfl, slotGo_succ, h]
  simp

lemma square_contains_5_5 : isPointInBoundary 5 5 gSquare = true := by
  norm_num [isPointInBoundary, gSquare, pointInPolygon, edgeCross, Feature.ring0,
    show List.range 4 = [0, 1, 2, 3] from rfl, List.getD_cons_zero, List.getD_cons_succ]

lemma bounds_fold_no_vertex : ∀ fs : List Feature,
    (fs.any fun f => decide (f.geometry.type = "Polygon") && !f.ring0.isEmpty) = false →
    ∀ b, fs.foldl updateFeature b = b := by
  intro fs
  induction fs with
  | nil => intro _ b; rfl
  | cons f rest ih =>
    intro h b
    rw [List.any_cons, Bool.or_eq_false_iff] at h
    rw [List.foldl_cons, updateFeature_of_no_vertex b f h.1]
    exact ih h.2 b

/-- C1: every result appended by the sampling loop passes the boundary containment
test: if `simulateCollection` completes with result list `rs`, then every
`r ∈ rs` satisfies `isPointInBoundary r.latitude r.longitude g = true` — points
are appended only after `validCoords` holds, and `validCoords` is exactly the
containment test on the drawn coordinates. -/
theorem sampled_points_contained (g : Option GeoJson) (n : ℤ)
    (draws : ℕ → ℚ × ℚ) (ids times : ℕ → String) (rs : List SVResult)
    (h : simulateCollection (some (.ok g)) n draws ids times = .completed rs) :
    ∀ r ∈ rs, isPointInBoundary r.latitude r.longitude g = true := by
  unfold simulateCollection at h
  have hrs : rs = runSlots g draws ids times n.toNat 0 0 [] := by
    cases h; rfl
  subst hrs
  exact runSlots_mem g draws ids times n.toNat 0 0 [] (by intro r hr; cases hr)

/-- Witness for C1: a one-point request over the spec's square boundary with draws
always `(5, 5)` completes with exactly the point `(5, 5)`, and the theorem yields
its containment. -/
theorem sampled_points_contained_witness :
    isPointInBoundary (5 : ℚ) (5 : ℚ) gSquare = true :=
  sampled_points_contained gSquare 1 (fun _ => (5, 5)) (fun _ => "p") (fun _ => "t")
    [{ panoid := "p", latitude := 5, longitude := 5, timestamp := "t" }]
    (by
      show CollectOutcome.completed
          (runSlots gSquare (fun _ => (5, 5)) (fun _ => "p") (fun _ => "t") (0 + 1) 0 0 []) = _
      rw [runSlots_succ,
        slotStep_first_valid gSquare (fun _ => (5, 5)) (fun _ => "p") (fun _ => "t") 0 0 []
          square_contains_5_5, runSlots_zero]
      rfl)
    { panoid := "p", latitude := 5, longitude := 5, timestamp := "t" } (by simp)

/-- C2 counterexample: on a boundary document with zero features the bounds
calculator does not fail — it returns the sentinel record
`{minLat: +∞, maxLat: −∞, minLng: +∞, maxLng: −∞}`, i.e. it silently propagates
the infinite initial bounds the claim says it must reject. -/
theorem getBoundaryBounds_empty_counterexample :
    getBoundaryBounds gNoFeatures = ⟨.posInf, .negInf, .posInf, .negInf⟩ := by
  decide

/-- C2 amended: given a Boundary containing no `'Polygon'` feature with a
nonempty first ring, `getBoundaryBounds` produces no error; it returns the
`±Infinity` sentinel bounds `{minLat: +∞, maxLat: −∞, minLng: +∞, maxLng: −∞}`
unchanged from its initialisation.  There is no `EmptyBoundary` error path in
the code. -/
theorem empty_boundary_infinite_bounds (g : Option GeoJson) (h : hasVertex g = false) :
    getBoundaryBounds g = ⟨.posInf, .negInf, .posInf, .negInf⟩ := by
  cases g with
  | none => rfl
  | some gj =>
    obtain ⟨ofs⟩ := gj
    cases ofs with
    | none => rfl
    | some fs =>
      have h' : (fs.any fun f => decide (f.geometry.type = "Polygon") && !f.ring0.isEmpty)
          = false := h
      exact bounds_fold_no_vertex fs h' Bounds.init

/-- Witness for C2's amended theorem at the zero-feature document. -/
theorem empty_boundary_infinite_bounds_witness :
    hasVertex gNoFeatures = false ∧
      getBoundaryBounds gNoFeatures = ⟨.posInf, .negInf, .posInf, .negInf⟩ :=
  ⟨by decide, empty_boundary_infinite_bounds gNoFeatures (by decide)⟩

/-- C3 counterexample: over a boundary that contains no point (zero features),
the per-slot do-while loop starting at draw index 0 exits with next draw index
101 — it drew a candidate and tested containment 101 times, not at most 100.
(The counter is incremented before the `attempts > 100` check, so the break
fires only after the 101st draw.) -/
theorem slot_attempts_101_counterexample :
    (slotGo gNoFeatures (fun _ => (0, 0)) 101 0).next = 101 := by
  decide

/-- C3 amended: for each requested point slot the retry loop always terminates,
drawing a candidate pair and testing containment at least once and at most 101
times (the attempt counter is incremented before the `> 100` check, so the
budget admits 101 draws): the next-draw index advances by at least 1 and at
most 101. -/
theorem slot_loop_attempt_budget (g : Option GeoJson) (draws : ℕ → ℚ × ℚ) (t : ℕ) :
    t < (slotGo g draws 101 t).next ∧ (slotGo g draws 101 t).next ≤ t + 101 :=
  slotGo_next_bounds g draws 101 t (by omega)

/-- C4 counterexample: a request with `targetCount = 0` over a well-formed
boundary is reported as a successful completion with an empty result list —
not as a terminal `InvalidRequestCount` failure (no such error path exists in
`simulateCollection`). -/
theorem zero_count_completes_counterexample :
    simulateCollection (some (.ok gSquare)) 0 (fun _ => (5, 5)) (fun _ => "p")
        (fun _ => "t") = .completed [] := by
  decide

/-- C4 amended: `simulateCollection` does not reject `N ≤ 0`: the collection
loop simply runs zero times and the run is reported as a successful completion
with an empty result sequence.  The only `N > 0` check in the component is the
UI gate `canStartCollection`, which is `false` for `N ≤ 0` and merely prevents
the collection from being started from the button. -/
theorem nonpositive_count_empty_success (g : Option GeoJson) (n : ℤ)
    (draws : ℕ → ℚ × ℚ) (ids times : ℕ → String) (url : String) (file : Option ParseResult)
    (h : n ≤ 0) :
    simulateCollection (some (.ok g)) n draws ids times = .completed [] ∧
      canStartCollection file url n = false := by
  constructor
  · unfold simulateCollection
    rw [Int.toNat_of_nonpos h]
    rfl
  · unfold canStartCollection
    simp [Int.not_lt.mpr h]

/-- Witness for C4's amended theorem at `n = 0` over the square boundary. -/
theorem nonpositive_count_empty_success_witness :
    (0 : ℤ) ≤ 0 ∧
      (simulateCollection (some (.ok gSquare)) 0 (fun _ => (5, 5)) (fun _ => "p")
          (fun _ => "t") = .completed [] ∧
        canStartCollection (some (.ok gSquare)) "https://maps.google.com/" 0 = false) :=
  ⟨le_refl 0,
    nonpositive_count_empty_success gSquare 0 (fun _ => (5, 5)) (fun _ => "p")
      (fun _ => "t") "https://maps.google.com/" (some (.ok gSquare)) (le_refl 0)⟩

/-- C7: when `simulateCollection` completes, the result sequence has length at
most the requested count (and at least 0, trivially); moreover a single slot
iteration appends at most one point to the accumulated list.  A slot whose
attempt budget is exhausted contributes no point and no error. -/
theorem sampler_length_bounded (g : Option GeoJson) (n : ℤ)
    (draws : ℕ → ℚ × ℚ) (ids times : ℕ → String) (rs : List SVResult)
    (h : simulateCollection (some (.ok g)) n draws ids times = .completed rs) :
    rs.length ≤ n.toNat ∧
      ∀ i t acc, ((slotStep g draws ids times i t acc).1).length ≤ acc.length + 1 := by
  constructor
  · unfold simulateCollection at h
    have hrs : rs = runSlots g draws ids times n.toNat 0 0 [] := by
      cases h; rfl
    subst hrs
    simpa using runSlots_length g draws ids times n.toNat 0 0 []
  · intro i t acc
    exact slotStep_length g draws ids times i t acc

/-- Witness for C7: a request of 2 points over the square boundary with draws
always `(5, 5)` completes with a 2-element list, and the theorem bounds its
length by 2. -/
theorem sampler_length_bounded_witness :
    ([({ panoid := "p", latitude := 5, longitude := 5, timestamp := "t" } : SVResult),
        { panoid := "p", latitude := 5, longitude := 5, timestamp := "t" }].length
      ≤ (2 : ℤ).toNat) ∧
      ∀ i t acc,
        ((slotStep gSquare (fun _ => (5, 5)) (fun _ => "p") (fun _ => "t") i t acc).1).length
          ≤ acc.length + 1 :=
  sampler_length_bounded gSquare 2 (fun _ => (5, 5)) (fun _ => "p") (fun _ => "t")
    [{ panoid := "p", latitude := 5, longitude := 5, timestamp := "t" },
      { panoid := "p", latitude := 5, longitude := 5, timestamp := "t" }]
    (by
      show CollectOutcome.completed
          (runSlots gSquare (fun _ => (5, 5)) (fun _ => "p") (fun _ => "t") (0 + 1 + 1) 0 0 [])
        = _
      rw [runSlots_succ,
        slotStep_first_valid gSquare (fun _ => (5, 5)) (fun _ => "p") (fun _ => "t") 0 0 []
          square_contains_5_5, runSlots_succ,
        slotStep_first_valid gSquare (fun _ => (5, 5)) (fun _ => "p") (fun _ => "t") _ _ _
          square_contains_5_5, runSlots_zero]
      rfl)

/-- C9: on a `null` boundary document, or one whose `features` field is missing,
the containment check is total and returns `false` for every point, and
consequently a completed sampling run over such a document accepts no points:
it completes with the empty result list rather than throwing. -/
theorem nullish_boundary_rejects_all (g : Option GeoJson)
    (h : g = none ∨ ∃ gj, g = some gj ∧ gj.features = none) :
    (∀ lat lng : ℚ, isPointInBoundary lat lng g = false) ∧
      ∀ (n : ℤ) (draws : ℕ → ℚ × ℚ) (ids times : ℕ → String),
        simulateCollection (some (.ok g)) n draws ids times = .completed [] := by
  have hfalse : ∀ lat lng : ℚ, isPointInBoundary lat lng g = false := by
    intro lat lng
    rcases h with h | ⟨gj, hg, hf⟩
    · rw [h]; rfl
    · subst hg
      obtain ⟨ofs⟩ := gj
      have hofs : ofs = none := hf
      subst hofs
      rfl
  refine ⟨hfalse, ?_⟩
  intro n draws ids times
  show CollectOutcome.completed (runSlots g draws ids times n.toNat 0 0 []) = _
  rw [runSlots_never_valid g draws ids times hfalse]

/-- Witness for C9 at the `null` document. -/
theorem nullish_boundary_rejects_all_witness :
    (∀ lat lng : ℚ, isPointInBoundary lat lng none = false) ∧
      ∀ (n : ℤ) (draws : ℕ → ℚ × ℚ) (ids times : ℕ → String),
        simulateCollection (some (.ok none)) n draws ids times = .completed [] :=
  nullish_boundary_rejects_all none (Or.inl rfl)

/-- Modelled from the spec (§4.2): an edge qualifies for the horizontal-ray
crossing iff its two endpoints straddle the point's latitude (one endpoint's
latitude strictly greater than the point's, the other not greater) and the
ray-intersection longitude exceeds the point's longitude. -/
def specEdgeCross (x y : ℚ) (vi vj : ℚ × ℚ) : Bool :=
  decide (((vi.2 > y ∧ ¬ vj.2 > y) ∨ (vj.2 > y ∧ ¬ vi.2 > y)) ∧
    x < vi.1 + (vj.1 - vi.1) * (y - vi.2) / (vj.2 - vi.2))

/-- Modelled from the spec (§4.2): the polygon's edge list
(vertex `i`, vertex `i − 1` with wraparound), as explicit vertex pairs: the
polygon zipped with its own rotation by `length − 1`. -/
def specEdges (polygon : List (ℚ × ℚ)) : List ((ℚ × ℚ) × (ℚ × ℚ)) :=
  polygon.zip (polygon.rotate (polygon.length - 1))

/-- Modelled from the spec (§4.2): even-odd ray casting — toggle an inside flag
on each qualifying edge and return the final flag. -/
def specEvenOdd (point : ℚ × ℚ) (polygon : List (ℚ × ℚ)) : Bool :=
  (specEdges polygon).foldl
    (fun inside e => if specEdgeCross point.1 point.2 e.1 e.2 then !inside else inside)
    false

lemma edgeCross_eq_spec (x y : ℚ) (vi vj : ℚ × ℚ) :
    edgeCross x y vi vj = specEdgeCross x y vi vj := by
  unfold edgeCross specEdgeCross
  rw [add_comm ((vj.1 - vi.1) * (y - vi.2) / (vj.2 - vi.2)) vi.1]
  by_cases h1 : vi.2 > y <;> by_cases h2 : vj.2 > y <;>
    by_cases h3 : x < vi.1 + (vj.1 - vi.1) * (y - vi.2) / (vj.2 - vi.2) <;>
      simp [h1, h2, h3]

lemma specEdges_eq_range_map (poly : List (ℚ × ℚ)) :
    specEdges poly = (List.range poly.length).map
      (fun i => (poly.getD i (0, 0),
        poly.getD (if i = 0 then poly.length - 1 else i - 1) (0, 0))) := by
  apply List.ext_getElem
  · simp [specEdges]
  · intro i h1 h2
    have hi : i < poly.length := by simpa [specEdges] using h1
    have hn : 0 < poly.length := by omega
    have hidx : (i + (poly.length - 1)) % poly.length
        = if i = 0 then poly.length - 1 else i - 1 := by
      by_cases h0 : i = 0
      · subst h0
        rw [if_pos rfl, Nat.zero_add]
        exact Nat.mod_eq_of_lt (by omega)
      · rw [if_neg h0, show i + (poly.length - 1) = (i - 1) + poly.length by omega,
          Nat.add_mod_right]
        exact Nat.mod_eq_of_lt (by omega)
    simp only [specEdges, List.getElem_zip, List.getElem_map, List.getElem_range,
      List.getElem_rotate, List.length_rotate, hidx]
    have hj : (if i = 0 then poly.length - 1 else i - 1) < poly.length := by
      by_cases h0 : i = 0 <;> simp [h0] <;> omega
    rw [List.getD_eq_getElem poly (0, 0) hi, List.getD_eq_getElem poly (0, 0) hj]

lemma pointInPolygon_eq_specEvenOdd (point : ℚ × ℚ) (polygon : List (ℚ × ℚ)) :
    pointInPolygon point polygon = specEvenOdd point polygon := by
  unfold pointInPolygon specEvenOdd
  rw [specEdges_eq_range_map, List.foldl_map]
  congr 1
  funext inside i
  simp only [edgeCross_eq_spec]

lemma foldl_toggle {α : Type} (P : α → Bool) :
    ∀ (l : List α) (b : Bool),
      l.foldl (fun inside e => if P e then !inside else inside) b
        = (b != (l.countP P % 2 == 1)) := by
  intro l
  induction l with
  | nil => intro b; cases b <;> rfl
  | cons a l ih =>
    intro b
    rw [List.foldl_cons, ih, List.countP_cons]
    by_cases hP : P a = true
    · have hflip : ((l.countP P + 1) % 2 == 1) = !(l.countP P % 2 == 1) := by
        rcases Nat.mod_two_eq_zero_or_one (l.countP P) with h | h
        · have h1 : (l.countP P + 1) % 2 = 1 := by omega
          rw [h, h1]; rfl
        · have h1 : (l.countP P + 1) % 2 = 0 := by omega
          rw [h, h1]; rfl
      rw [if_pos hP, if_pos hP, hflip]
      cases b <;> cases (l.countP P % 2 == 1) <;> rfl
    · rw [if_neg hP, if_neg hP, Nat.add_zero]

lemma zip_rotate {α β : Type} (a : List α) (b : List β) (k : ℕ) (h : a.length = b.length) :
    (a.zip b).rotate k = (a.rotate k).zip (b.rotate k) := by
  apply List.ext_getElem
  · simp [List.length_rotate, List.length_zip, h]
  · intro i h1 h2
    have hlen : (a.zip b).length = a.length := by simp [List.length_zip, h]
    have hi : i < a.length := by
      simpa [List.length_rotate, hlen] using h1
    simp only [List.getElem_rotate, List.getElem_zip, List.length_rotate, hlen, h]

lemma specEdges_rotate (poly : List (ℚ × ℚ)) (k : ℕ) :
    specEdges (poly.rotate k) = (specEdges poly).rotate k := by
  unfold specEdges
  rw [List.length_rotate, List.rotate_rotate,
    zip_rotate poly (poly.rotate (poly.length - 1)) k (List.length_rotate poly _).symm,
    List.rotate_rotate, Nat.add_comm k (poly.length - 1)]

/-- C5: the containment test computes exactly the even-odd ray-casting result
described by the spec: iterating the edges (vertex `i`, vertex `i − 1` with
wraparound), an inside flag is toggled exactly when the edge's endpoints
straddle the point's latitude (one strictly greater, the other not greater)
and the horizontal-ray intersection longitude exceeds the point's longitude,
and the final flag is returned — `pointInPolygon` agrees with that description
(`specEvenOdd`, modelled from the spec's words) on every point and polygon. -/
theorem pointInPolygon_is_even_odd_rule (point : ℚ × ℚ) (polygon : List (ℚ × ℚ)) :
    pointInPolygon point polygon = specEvenOdd point polygon :=
  pointInPolygon_eq_specEvenOdd point polygon

/-- C6: the containment test is invariant under cyclic rotation of the polygon's
vertex list: for every query point, every polygon and every rotation offset `k`,
`pointInPolygon` gives the same answer on the rotated ring as on the original. -/
theorem pointInPolygon_rotation_invariant (point : ℚ × ℚ) (polygon : List (ℚ × ℚ)) (k : ℕ) :
    pointInPolygon point (polygon.rotate k) = pointInPolygon point polygon := by
  rw [pointInPolygon_eq_specEvenOdd, pointInPolygon_eq_specEvenOdd]
  unfold specEvenOdd
  rw [foldl_toggle, foldl_toggle]
  have hperm : (specEdges (polygon.rotate k)).Perm (specEdges polygon) := by
    rw [specEdges_rotate]
    exact List.rotate_perm _ _
  rw [hperm.countP_eq]

/-- The projection described by C10: keep only features whose geometry type is
exactly `'Polygon'`, and within each such feature only its first coordinate
ring; drop everything else. -/
def normalizeFeature (f : Feature) : Option Feature :=
  if f.geometry.type = "Polygon" then some ⟨⟨"Polygon", [f.ring0]⟩⟩ else none

/-- Apply `normalizeFeature` across a boundary document. -/
def normalizeBoundary : Option GeoJson → Option GeoJson
  | none => none
  | some gj => some ⟨gj.features.map fun fs => fs.filterMap normalizeFeature⟩

/-- A square boundary whose polygon carries a second (hole) ring around `(5,5)`:
outer ring `[(0,0),(0,10),(10,10),(10,0)]`, hole ring `[(2,2),(2,8),(8,8),(8,2)]`. -/
def gHole : Option GeoJson :=
  some ⟨some [⟨⟨"Polygon",
    [[(0, 0), (0, 10), (10, 10), (10, 0)], [(2, 2), (2, 8), (8, 8), (8, 2)]]⟩⟩]⟩

lemma any_filterMap_normalize (lat lng : ℚ) : ∀ fs : List Feature,
    ((fs.filterMap normalizeFeature).any fun f =>
        decide (f.geometry.type = "Polygon") && pointInPolygon (lng, lat) f.ring0)
      = fs.any fun f =>
          decide (f.geometry.type = "Polygon") && pointInPolygon (lng, lat) f.ring0 := by
  intro fs
  induction fs with
  | nil => rfl
  | cons f rest ih =>
    by_cases ht : f.geometry.type = "Polygon"
    · simp only [List.filterMap_cons, normalizeFeature, if_pos ht, List.any_cons, ih]
      simp [ht, Feature.ring0]
    · simp only [List.filterMap_cons, normalizeFeature, if_neg ht, List.any_cons, ih]
      simp [ht]

lemma foldl_filterMap_normalize : ∀ (fs : List Feature) (b : Bounds),
    (fs.filterMap normalizeFeature).foldl updateFeature b = fs.foldl updateFeature b := by
  intro fs
  induction fs with
  | nil => intro b; rfl
  | cons f rest ih =>
    intro b
    by_cases ht : f.geometry.type = "Polygon"
    · simp only [List.filterMap_cons, normalizeFeature, if_pos ht, List.foldl_cons, ih]
      congr 1
      simp [updateFeature, ht, Feature.ring0]
    · simp only [List.filterMap_cons, normalizeFeature, if_neg ht, List.foldl_cons, ih]
      rw [show updateFeature b f = b from by simp [updateFeature, ht]]

/-- C10: both the containment check and the bounds calculator read only features
whose geometry type is exactly `'Polygon'` and, within each, only the first
coordinate ring: normalising a document to that projection changes neither
result.  Consequently a point inside a polygon's second (hole) ring is still
reported inside the boundary: `(5,5)` against the square-with-hole document. -/
theorem only_first_ring_of_polygons_considered :
    (∀ (lat lng : ℚ) (g : Option GeoJson),
        isPointInBoundary lat lng (normalizeBoundary g) = isPointInBoundary lat lng g) ∧
      (∀ g : Option GeoJson,
        getBoundaryBounds (normalizeBoundary g) = getBoundaryBounds g) ∧
      isPointInBoundary 5 5 gHole = true := by
  refine ⟨?_, ?_, ?_⟩
  · intro lat lng g
    cases g with
    | none => rfl
    | some gj =>
      obtain ⟨ofs⟩ := gj
      cases ofs with
      | none => rfl
      | some fs => exact any_filterMap_normalize lat lng fs
  · intro g
    cases g with
    | none => rfl
    | some gj =>
      obtain ⟨ofs⟩ := gj
      cases ofs with
      | none => rfl
      | some fs => exact foldl_filterMap_normalize fs Bounds.init
  · norm_num [isPointInBoundary, gHole, pointInPolygon, edgeCross, Feature.ring0,
      show List.range 4 = [0, 1, 2, 3] from rfl, List.getD_cons_zero, List.getD_cons_succ]

/-- The bounding box contains the vertex `v = (lng, lat)`. -/
def Bounds.containsPt (b : Bounds) (v : ℚ × ℚ) : Prop :=
  b.minLat.leQ v.2 ∧ b.maxLat.geQ v.2 ∧ b.minLng.leQ v.1 ∧ b.maxLng.geQ v.1

/-- The accumulator shape every reachable state has: minima never `-∞`,
maxima never `+∞`. -/
def Bounds.ok (b : Bounds) : Prop :=
  b.minLat ≠ .negInf ∧ b.maxLat ≠ .posInf ∧ b.minLng ≠ .negInf ∧ b.maxLng ≠ .posInf

/-- All four bounds finite, with min ≤ max on both axes. -/
def Bounds.finOrdered (b : Bounds) : Prop :=
  ∃ lo hi lo2 hi2 : ℚ,
    b = ⟨.fin lo, .fin hi, .fin lo2, .fin hi2⟩ ∧ lo ≤ hi ∧ lo2 ≤ hi2

lemma XReal.minQ_le_self (x : XReal) (q : ℚ) : (x.minQ q).leQ q := by
  cases x <;> simp [XReal.minQ, XReal.leQ]

lemma XReal.maxQ_ge_self (x : XReal) (q : ℚ) : (x.maxQ q).geQ q := by
  cases x <;> simp [XReal.maxQ, XReal.geQ]

lemma XReal.minQ_pres (x : XReal) (p q : ℚ) (h : x.leQ p) : (x.minQ q).leQ p := by
  cases x with
  | negInf => trivial
  | posInf => exact h.elim
  | fin a =>
    have ha : a ≤ p := h
    show min a q ≤ p
    exact le_trans (min_le_left a q) ha

lemma XReal.maxQ_pres (x : XReal) (p q : ℚ) (h : x.geQ p) : (x.maxQ q).geQ p := by
  cases x with
  | posInf => trivial
  | negInf => exact h.elim
  | fin a =>
    have ha : p ≤ a := h
    show p ≤ max a q
    exact le_trans ha (le_max_left a q)

lemma XReal.minQ_fin (x : XReal) (q : ℚ) (h : x ≠ .negInf) :
    ∃ r : ℚ, x.minQ q = .fin r ∧ r ≤ q := by
  cases x with
  | negInf => exact absurd rfl h
  | posInf => exact ⟨q, rfl, le_refl q⟩
  | fin a => exact ⟨min a q, rfl, min_le_right a q⟩

lemma XReal.maxQ_fin (x : XReal) (q : ℚ) (h : x ≠ .posInf) :
    ∃ r : ℚ, x.maxQ q = .fin r ∧ q ≤ r := by
  cases x with
  | posInf => exact absurd rfl h
  | negInf => exact ⟨q, rfl, le_refl q⟩
  | fin a => exact ⟨max a q, rfl, le_max_right a q⟩

lemma updateVertex_contains_self (b : Bounds) (v : ℚ × ℚ) :
    (updateVertex b v).containsPt v :=
  ⟨XReal.minQ_le_self _ _, XReal.maxQ_ge_self _ _, XReal.minQ_le_self _ _,
    XReal.maxQ_ge_self _ _⟩

lemma updateVertex_pres_contains (b : Bounds) (v w : ℚ × ℚ) (h : b.containsPt w) :
    (updateVertex b v).containsPt w :=
  ⟨XReal.minQ_pres _ _ _ h.1, XReal.maxQ_pres _ _ _ h.2.1, XReal.minQ_pres _ _ _ h.2.2.1,
    XReal.maxQ_pres _ _ _ h.2.2.2⟩

lemma updateVertex_finOrdered (b : Bounds) (v : ℚ × ℚ) (h : b.ok) :
    (updateVertex b v).finOrdered := by
  obtain ⟨lo, h1, hle1⟩ := XReal.minQ_fin b.minLat v.2 h.1
  obtain ⟨hi, h2, hle2⟩ := XReal.maxQ_fin b.maxLat v.2 h.2.1
  obtain ⟨lo2, h3, hle3⟩ := XReal.minQ_fin b.minLng v.1 h.2.2.1
  obtain ⟨hi2, h4, hle4⟩ := XReal.maxQ_fin b.maxLng v.1 h.2.2.2
  refine ⟨lo, hi, lo2, hi2, ?_, le_trans hle1 hle2, le_trans hle3 hle4⟩
  simp [updateVertex, h1, h2, h3, h4]

lemma finOrdered_ok (b : Bounds) (h : b.finOrdered) : b.ok := by
  obtain ⟨lo, hi, lo2, hi2, hb, _, _⟩ := h
  subst hb
  exact ⟨by simp, by simp, by simp, by simp⟩

lemma updateVertex_ok (b : Bounds) (v : ℚ × ℚ) (h : b.ok) : (updateVertex b v).ok :=
  finOrdered_ok _ (updateVertex_finOrdered b v h)

lemma foldl_updateVertex_ok (ring : List (ℚ × ℚ)) :
    ∀ b : Bounds, b.ok → (ring.foldl updateVertex b).ok := by
  induction ring with
  | nil => intro b h; exact h
  | cons v vs ih => intro b h; exact ih _ (updateVertex_ok b v h)

lemma foldl_updateVertex_pres_contains (ring : List (ℚ × ℚ)) (w : ℚ × ℚ) :
    ∀ b : Bounds, b.containsPt w → (ring.foldl updateVertex b).containsPt w := by
  induction ring with
  | nil => intro b h; exact h
  | cons v vs ih => intro b h; exact ih _ (updateVertex_pres_contains b v w h)

lemma foldl_updateVertex_contains_mem (ring : List (ℚ × ℚ)) :
    ∀ b : Bounds, ∀ v ∈ ring, (ring.foldl updateVertex b).containsPt v := by
  induction ring with
  | nil => intro b v hv; cases hv
  | cons w vs ih =>
    intro b v hv
    rw [List.foldl_cons]
    rcases List.mem_cons.mp hv with hv | hv
    · subst hv
      exact foldl_updateVertex_pres_contains vs v _ (updateVertex_contains_self b v)
    · exact ih _ v hv

lemma foldl_updateVertex_pres_finOrdered (ring : List (ℚ × ℚ)) :
    ∀ b : Bounds, b.finOrdered → (ring.foldl updateVertex b).finOrdered := by
  induction ring with
  | nil => intro b h; exact h
  | cons v vs ih =>
    intro b h
    exact ih _ (updateVertex_finOrdered b v (finOrdered_ok b h))

lemma foldl_updateVertex_finOrdered (ring : List (ℚ × ℚ)) (b : Bounds)
    (hb : b.ok) (hne : ring ≠ []) : (ring.foldl updateVertex b).finOrdered := by
  cases ring with
  | nil => exact absurd rfl hne
  | cons v vs =>
    rw [List.foldl_cons]
    exact foldl_updateVertex_pres_finOrdered vs _ (updateVertex_finOrdered b v hb)

lemma updateFeature_ok (b : Bounds) (f : Feature) (h : b.ok) : (updateFeature b f).ok := by
  unfold updateFeature
  split
  · exact foldl_updateVertex_ok _ b h
  · exact h

lemma updateFeature_pres_contains (b : Bounds) (f : Feature) (w : ℚ × ℚ)
    (h : b.containsPt w) : (updateFeature b f).containsPt w := by
  unfold updateFeature
  split
  · exact foldl_updateVertex_pres_contains _ w b h
  · exact h

lemma updateFeature_pres_finOrdered (b : Bounds) (f : Feature) (h : b.finOrdered) :
    (updateFeature b f).finOrdered := by
  unfold updateFeature
  split
  · exact foldl_updateVertex_pres_finOrdered _ b h
  · exact h

lemma updateFeature_contains_ring (b : Bounds) (f : Feature)
    (ht : f.geometry.type = "Polygon") :
    ∀ v ∈ f.ring0, (updateFeature b f).containsPt v := by
  intro v hv
  unfold updateFeature
  rw [if_pos ht]
  exact foldl_updateVertex_contains_mem f.ring0 b v hv

lemma foldl_updateFeature_ok (fs : List Feature) :
    ∀ b : Bounds, b.ok → (fs.foldl updateFeature b).ok := by
  induction fs with
  | nil => intro b h; exact h
  | cons f rest ih => intro b h; exact ih _ (updateFeature_ok b f h)

lemma foldl_updateFeature_pres_contains (fs : List Feature) (w : ℚ × ℚ) :
    ∀ b : Bounds, b.containsPt w → (fs.foldl updateFeature b).containsPt w := by
  induction fs with
  | nil => intro b h; exact h
  | cons f rest ih => intro b h; exact ih _ (updateFeature_pres_contains b f w h)

lemma foldl_updateFeature_pres_finOrdered (fs : List Feature) :
    ∀ b : Bounds, b.finOrdered → (fs.foldl updateFeature b).finOrdered := by
  induction fs with
  | nil => intro b h; exact h
  | cons f rest ih => intro b h; exact ih _ (updateFeature_pres_finOrdered b f h)

lemma foldl_updateFeature_contains (fs : List Feature) :
    ∀ b : Bounds, ∀ f ∈ fs, f.geometry.type = "Polygon" →
      ∀ v ∈ f.ring0, (fs.foldl updateFeature b).containsPt v := by
  induction fs with
  | nil => intro b f hf; cases hf
  | cons f0 rest ih =>
    intro b f hf ht v hv
    rw [List.foldl_cons]
    rcases List.mem_cons.mp hf with hf | hf
    · subst hf
      exact foldl_updateFeature_pres_contains rest v _
        (updateFeature_contains_ring b f ht v hv)
    · exact ih _ f hf ht v hv

lemma foldl_updateFeature_finOrdered (fs : List Feature) :
    ∀ b : Bounds, b.ok →
      (fs.any fun f => decide (f.geometry.type = "Polygon") && !f.ring0.isEmpty) = true →
      (fs.foldl updateFeature b).finOrdered := by
  induction fs with
  | nil => intro b _ hany; cases hany
  | cons f rest ih =>
    intro b hb hany
    rw [List.any_cons, Bool.or_eq_true] at hany
    rw [List.foldl_cons]
    rcases hany with hf | hrest
    · rw [Bool.and_eq_true] at hf
      obtain ⟨ht, hne⟩ := hf
      have ht' : f.geometry.type = "Polygon" := of_decide_eq_true ht
      have hne' : f.ring0 ≠ [] := by
        intro hcon
        rw [hcon] at hne
        cases hne
      apply foldl_updateFeature_pres_finOrdered
      unfold updateFeature
      rw [if_pos ht']
      exact foldl_updateVertex_finOrdered f.ring0 b hb hne'
    · exact ih _ (updateFeature_ok b f hb) hrest

/-- The feature list the bounds calculator iterates over (empty when the
document is `null` or has no `features` field). -/
def featuresOf : Option GeoJson → List Feature
  | none => []
  | some gj => gj.features.getD []

/-- C8: over any boundary with at least one `'Polygon'` feature having at least
one vertex, the computed BoundingBox is finite with `minLat ≤ maxLat` and
`minLng ≤ maxLng`, and it contains every vertex of every polygon's ring
(every `(lng, lat)` in the first ring of every `'Polygon'` feature). -/
theorem bounds_ordered_and_contain_vertices (g : Option GeoJson)
    (h : hasVertex g = true) :
    (∃ lo hi lo2 hi2 : ℚ,
        getBoundaryBounds g = ⟨.fin lo, .fin hi, .fin lo2, .fin hi2⟩ ∧ lo ≤ hi ∧ lo2 ≤ hi2) ∧
      ∀ f ∈ featuresOf g, f.geometry.type = "Polygon" →
        ∀ v ∈ f.ring0, (getBoundaryBounds g).containsPt v := by
  cases g with
  | none => cases h
  | some gj =>
    obtain ⟨ofs⟩ := gj
    cases ofs with
    | none => cases h
    | some fs =>
      have hany : (fs.any fun f =>
          decide (f.geometry.type = "Polygon") && !f.ring0.isEmpty) = true := h
      have hinit : Bounds.init.ok := by
        refine ⟨?_, ?_, ?_, ?_⟩ <;> intro hc <;> cases hc
      constructor
      · exact foldl_updateFeature_finOrdered fs Bounds.init hinit hany
      · intro f hf ht v hv
        exact foldl_updateFeature_contains fs Bounds.init f hf ht v hv

/-- Witness for C8 at the spec's square boundary: its bounds are
`{minLat: 0, maxLat: 10, minLng: 0, maxLng: 10}`-shaped finite ordered bounds
containing all four vertices. -/
theorem bounds_ordered_and_contain_vertices_witness :
    hasVertex gSquare = true ∧
      ((∃ lo hi lo2 hi2 : ℚ,
          getBoundaryBounds gSquare = ⟨.fin lo, .fin hi, .fin lo2, .fin hi2⟩ ∧
            lo ≤ hi ∧ lo2 ≤ hi2) ∧
        ∀ f ∈ featuresOf gSquare, f.geometry.type = "Polygon" →
          ∀ v ∈ f.ring0, (getBoundaryBounds gSquare).containsPt v) :=
  ⟨by decide, bounds_ordered_and_contain_vertices gSquare (by decide)⟩
